import Mathlib

/-!
Verification development for the `callbot` event-assistant backend.

Each Python component used by the checked properties is shallowly embedded
as an executable Lean definition translated from the source:

* `backend/context_manager.py` — session context (`Ctx`, `resolveReference`,
  `save`, `addMessage`, `setMentionedEvents`);
* `backend/bot_logic.py` — message cleaning, the phone-collection state
  machine, and the regex-driven intent extractor;
* `backend/rag_engine.py` — the FAISS-backed semantic search engine and its
  Redis result cache;
* `backend/tools.py` — the booking ledger (`bookTicket` / `cancelTicket`);
* `backend/llm_provider.py` — the Ollama streaming generator and the
  orchestrator fallback around it.

Python strings are modelled as `String` / `List Char` (character lists,
ASCII character classes), Python ints as `Int` / `Nat`, float arithmetic on
relevance scores as exact rational arithmetic (`ℚ`), and the external
sentence-transformer embedding model as an explicit function parameter
`embed : String → List ℚ`.
-/

namespace Callbot

/-! ## Character and string helpers (Python semantics) -/

/-- Python whitespace class `\s` (ASCII): space, tab, newline, carriage
return, vertical tab, form feed. -/
def isPySpace (c : Char) : Bool :=
  c == ' ' || c == '\t' || c == '\n' || c == '\r' || c == '\x0b' || c == '\x0c'

/-- Python word-character class `\w` (ASCII): letters, digits, underscore. -/
def isWordChar (c : Char) : Bool :=
  c.isAlphanum || c == '_'

/-- Python `str.lower()` on a character list (ASCII). -/
def pyLower (s : List Char) : List Char :=
  s.map Char.toLower

/-- Python `str.strip()`: drop leading and trailing whitespace. -/
def pyStrip (s : List Char) : List Char :=
  ((s.dropWhile isPySpace).reverse.dropWhile isPySpace).reverse

/-- Does `pat` occur as a prefix of `s`? -/
def startsCh : List Char → List Char → Bool
  | [], _ => true
  | _ :: _, [] => false
  | p :: ps, c :: cs => p == c && startsCh ps cs

/-- Python substring containment `pat in hay` (for non-empty `pat`). -/
def containsSub : List Char → List Char → Bool
  | [], pat => startsCh pat []
  | c :: cs, pat => startsCh pat (c :: cs) || containsSub cs pat

/-! ## Session context (`backend/context_manager.py`) -/

/-- One entry of `conversation_history`: `{"role", "content", "timestamp"}`. -/
structure HistMsg where
  role : String
  content : String
  timestamp : String
deriving DecidableEq

/-- The `ContextManager.context` dictionary. -/
structure Ctx where
  last_mentioned_events : List String
  pending_booking : Option (String × Int)
  last_search_query : Option String
  last_action : Option String
  conversation_history : List HistMsg
deriving DecidableEq

/-- The fresh context built in `ContextManager.__init__`. -/
def initCtx : Ctx :=
  { last_mentioned_events := []
    pending_booking := none
    last_search_query := none
    last_action := none
    conversation_history := [] }

/-- `ContextManager.add_message(role, content)`; the wall-clock timestamp is
passed explicitly. -/
def addMessage (role content ts : String) (c : Ctx) : Ctx :=
  { c with conversation_history :=
      c.conversation_history ++ [{ role := role, content := content, timestamp := ts }] }

/-- `ContextManager.set_mentioned_events(event_ids)`: keeps `event_ids[:5]`. -/
def setMentionedEvents (ids : List String) (c : Ctx) : Ctx :=
  { c with last_mentioned_events := ids.take 5 }

/-- `ContextManager.save()`: trims `conversation_history` to its last 10
entries before writing the context to Redis; the returned context is both the
in-memory state after the call and the persisted value. -/
def save (c : Ctx) : Ctx :=
  if c.conversation_history.length > 10 then
    { c with conversation_history :=
        c.conversation_history.drop (c.conversation_history.length - 10) }
  else c

/-- `ContextManager.resolve_reference(text)`, with the mentioned-events list
passed explicitly (it is `self.get_mentioned_events()` in the source). -/
def resolveReference (mentioned : List String) (text : String) : Option String :=
  let tl := pyLower text.data
  if mentioned.isEmpty then none
  else if ["that", "this", "it", "that one", "this one"].any
      (fun r => containsSub tl r.data) then
    mentioned.get? 0
  else if containsSub tl "first".data ∧ 1 ≤ mentioned.length then
    mentioned.get? 0
  else if containsSub tl "second".data ∧ 2 ≤ mentioned.length then
    mentioned.get? 1
  else if containsSub tl "last".data ∧ 1 ≤ mentioned.length then
    mentioned.getLast?
  else none

/-- The reference-resolution rule table exactly as the specification words it
(for claim C1): empty list → none; a contained demonstrative → index 0;
`first` → index 0; `second` → index 1, applicable only with at least two ids;
`last` → the final (highest) index; otherwise none. -/
def claimResolve (mentioned : List String) (text : String) : Option String :=
  let tl := pyLower text.data
  if mentioned.isEmpty then none
  else if ["that", "this", "it", "that one", "this one"].any
      (fun r => containsSub tl r.data) then
    mentioned.get? 0
  else if containsSub tl "first".data then
    mentioned.get? 0
  else if containsSub tl "second".data ∧ 2 ≤ mentioned.length then
    mentioned.get? 1
  else if containsSub tl "last".data then
    mentioned.getLast?
  else none

theorem resolveReference_nil (text : String) : resolveReference [] text = none := by
  simp [resolveReference]

/-- Claim C1: `resolve_reference` returns none on an empty mentioned-events
list; otherwise it follows the spec's rule table (demonstratives → index 0,
`first` → index 0, `second` → index 1 and only with at least two ids
present, `last` → the most recent, i.e. final, index, else none); with fewer
than two mentioned events the text `"second"` resolves to none.  The result
is a deterministic function of the mentioned list and the text because
`resolveReference` is a pure function. -/
theorem C1_resolve_reference_rule_table (mentioned : List String) (text : String) :
    resolveReference mentioned text = claimResolve mentioned text
    ∧ (mentioned = [] → resolveReference mentioned text = none)
    ∧ (mentioned.length < 2 → resolveReference mentioned "second" = none) := by
  refine ⟨?_, ?_, ?_⟩
  · cases mentioned with
    | nil => simp [resolveReference, claimResolve]
    | cons m ms =>
      simp only [resolveReference, claimResolve, List.isEmpty_cons]
      have h1 : 1 ≤ (m :: ms).length := Nat.succ_le_succ (Nat.zero_le _)
      simp [h1]
  · intro h; subst h; exact resolveReference_nil text
  · intro hlt
    cases mentioned with
    | nil => exact resolveReference_nil _
    | cons m ms =>
      cases ms with
      | cons b bs => simp at hlt; omega
      | nil =>
        have hdem : (["that", "this", "it", "that one", "this one"].any
            (fun r => containsSub (pyLower (String.data "second")) r.data)) = false := by decide
        have hfirst : containsSub (pyLower (String.data "second")) "first".data = false := by decide
        have hlast : containsSub (pyLower (String.data "second")) "last".data = false := by decide
        simp [resolveReference, hdem, hfirst, hlast]

/-- Witness for C1 at concrete inputs: the rule-table equality on a sample
text, the empty-list case, and `"second"` with a single mentioned event. -/
theorem C1_witness :
    resolveReference ["evt001"] "book the second one" =
      claimResolve ["evt001"] "book the second one"
    ∧ resolveReference [] "that" = none
    ∧ resolveReference ["evt001"] "second" = none :=
  ⟨(C1_resolve_reference_rule_table ["evt001"] "book the second one").1,
   (C1_resolve_reference_rule_table [] "that").2.1 rfl,
   (C1_resolve_reference_rule_table ["evt001"] "second").2.2 (by decide)⟩

/-- Claim C10: the demonstrative reference words are matched by substring
containment on the lowercased text, not by word boundary, so any text whose
lowercase form contains `that`, `this` or `it` anywhere — including inside a
longer word such as `city`, `with` or `guitar` — resolves to the most
recently mentioned id (index 0) whenever the mentioned-events list is
non-empty. -/
theorem C10_substring_demonstratives (m0 : String) (rest : List String) (text : String)
    (h : containsSub (pyLower text.data) "that".data = true
       ∨ containsSub (pyLower text.data) "this".data = true
       ∨ containsSub (pyLower text.data) "it".data = true) :
    resolveReference (m0 :: rest) text = some m0 := by
  have hany : (["that", "this", "it", "that one", "this one"].any
      (fun r => containsSub (pyLower text.data) r.data)) = true := by
    simp only [List.any_cons, List.any_nil, Bool.or_eq_true]
    rcases h with h | h | h
    · exact Or.inl h
    · exact Or.inr (Or.inl h)
    · exact Or.inr (Or.inr (Or.inl h))
  simp [resolveReference, hany]

/-- Witness for C10: `"city"` contains `it` inside a longer word, and
resolves to the most recently mentioned event. -/
theorem C10_witness : resolveReference ["evt001"] "city" = some "evt001" :=
  C10_substring_demonstratives "evt001" [] "city" (Or.inr (Or.inr (by decide)))

/-! ## Claim C5: context bounds after save -/

/-- A mutation of the session context: either `add_message` or
`set_mentioned_events`. -/
inductive CtxOp where
  | addMsg (role content ts : String)
  | setMentioned (ids : List String)

/-- Apply one mutation. -/
def applyOp (c : Ctx) : CtxOp → Ctx
  | .addMsg r x t => addMessage r x t c
  | .setMentioned ids => setMentionedEvents ids c

/-- Apply a sequence of mutations to a context. -/
def applyOps (ops : List CtxOp) (c : Ctx) : Ctx :=
  ops.foldl applyOp c

theorem mentioned_le_five_applyOps (ops : List CtxOp) (c : Ctx)
    (h : c.last_mentioned_events.length ≤ 5) :
    (applyOps ops c).last_mentioned_events.length ≤ 5 := by
  induction ops generalizing c with
  | nil => exact h
  | cons op rest ih =>
    cases op with
    | addMsg r x t => exact ih _ h
    | setMentioned ids =>
      refine ih _ ?_
      simp only [applyOp, setMentionedEvents, List.length_take]
      omega

/-- Claim C5: after any sequence of `add_message` / `set_mentioned_events`
calls on a fresh session context, `save` leaves at most 10 conversation
history entries (dropping only the oldest entries, so the saved history is a
suffix of the pre-save history) and at most 5 mentioned-event ids; the
history bound is enforced by `save` itself before the context is persisted,
and the mentioned-events bound is enforced by `set_mentioned_events` before
any save. -/
theorem C5_context_bounds_after_save (ops : List CtxOp) :
    (save (applyOps ops initCtx)).conversation_history.length ≤ 10
    ∧ (save (applyOps ops initCtx)).last_mentioned_events.length ≤ 5
    ∧ (save (applyOps ops initCtx)).conversation_history <:+
        (applyOps ops initCtx).conversation_history := by
  refine ⟨?_, ?_, ?_⟩
  · unfold save
    split
    · simp only [List.length_drop]
      omega
    · omega
  · have hm := mentioned_le_five_applyOps ops initCtx (by simp [initCtx])
    unfold save
    split <;> simpa using hm
  · unfold save
    split
    · exact List.drop_suffix _ _
    · exact List.suffix_refl _

/-! ## Orchestrator state machine (`backend/bot_logic.py`) -/

/-- Collapse every maximal run of whitespace to a single space, as
`re.sub(r"\s+", " ", s)` does; the flag records whether the previous
character belonged to a whitespace run already replaced. -/
def collapseWsAux : Bool → List Char → List Char
  | _, [] => []
  | prevSpace, c :: cs =>
    if isPySpace c then
      if prevSpace then collapseWsAux true cs
      else ' ' :: collapseWsAux true cs
    else c :: collapseWsAux false cs

/-- `ConversationManager._clean_message`: strip, then collapse internal
whitespace runs to single spaces. -/
def cleanMessage (s : String) : String :=
  String.mk (collapseWsAux false (pyStrip s.data))

/-- Python `str.isdigit()` restricted to ASCII decimal digits: non-empty and
all characters in `0`–`9`. -/
def pyIsDigit (s : String) : Bool :=
  !s.data.isEmpty && s.data.all Char.isDigit

/-- The two values of `ConversationManager.state`, with the collected phone
number attached to `CONVERSING`. -/
inductive BotState where
  | awaitingPhone
  | conversing (phone : String)
deriving DecidableEq

/-- What a single `handle_message` turn sends back, as far as the
phone-collection state machine is concerned. -/
inductive TurnReply where
  | accepted (text : String)
  | reprompt (text : String)
  | conversingTurn
deriving DecidableEq

/-- The state transition of `ConversationManager.handle_message`: in
`AWAITING_PHONE`, a cleaned all-digit message of length 10 is stored as the
phone number and the state becomes `CONVERSING`; anything else re-prompts
and stays in `AWAITING_PHONE`.  The `CONVERSING` branch of the source never
assigns `self.state`, so it is modelled as leaving the state untouched
(its replies are summarised as `conversingTurn`). -/
def handleMessageState (st : BotState) (raw : String) : BotState × TurnReply :=
  match st with
  | .awaitingPhone =>
    let m := cleanMessage raw
    if pyIsDigit m ∧ m.length = 10 then
      (.conversing m, .accepted "Thank you! How may I assist you with events today?")
    else
      (.awaitingPhone, .reprompt "I need a 10-digit number. Can you try again?")
  | .conversing p => (.conversing p, .conversingTurn)

/-- Claim C2: while awaiting the phone number, a cleaned message that is all
digits and exactly 10 characters long transitions to `CONVERSING`, storing
the message as the phone number; every other message stays in
`AWAITING_PHONE` and re-prompts; once in `CONVERSING`, no input ever
transitions the session back to `AWAITING_PHONE`. -/
theorem C2_phone_state_machine (raw : String) :
    ((pyIsDigit (cleanMessage raw) = true ∧ (cleanMessage raw).length = 10) →
      handleMessageState .awaitingPhone raw =
        (.conversing (cleanMessage raw),
         .accepted "Thank you! How may I assist you with events today?"))
    ∧ (¬(pyIsDigit (cleanMessage raw) = true ∧ (cleanMessage raw).length = 10) →
      handleMessageState .awaitingPhone raw =
        (.awaitingPhone, .reprompt "I need a 10-digit number. Can you try again?"))
    ∧ (∀ p msg, (handleMessageState (.conversing p) msg).1 = .conversing p) := by
  refine ⟨?_, ?_, ?_⟩
  · intro h
    simp only [handleMessageState]
    rw [if_pos h]
  · intro h
    simp only [handleMessageState]
    rw [if_neg h]
  · intro p msg
    rfl

/-- Witness for C2: `"1234567890"` is accepted and `" 123 "` is re-prompted. -/
theorem C2_witness :
    handleMessageState .awaitingPhone "1234567890" =
      (.conversing "1234567890",
       .accepted "Thank you! How may I assist you with events today?")
    ∧ handleMessageState .awaitingPhone " 123 " =
      (.awaitingPhone, .reprompt "I need a 10-digit number. Can you try again?") :=
  ⟨(C2_phone_state_machine "1234567890").1 (by decide),
   (C2_phone_state_machine " 123 ").2.1 (by decide)⟩

/-! ## Intent extraction (`ConversationManager.extract_intent`)

Each of the source's `re.search` patterns over the lowercased message is
embedded as a left-to-right scanner over the character list.  The scanners
carry the previous character so that `\b` before a word-character pattern
can be decided locally (`\b` holds at the start of the string or after a
non-word character).  The non-greedy gaps `.*?` may consume any character
except a newline. -/

/-- Word-boundary test for a pattern that starts with a word character:
true at the start of the string or after a non-word character. -/
def boundaryOK : Option Char → Bool
  | none => true
  | some p => !isWordChar p

/-- Does any of the alternatives occur as a prefix of `s`? -/
def startsAny (alts : List (List Char)) (s : List Char) : Bool :=
  alts.any (fun a => startsCh a s)

/-- Does `tic_\w+` match at the head of `s`? -/
def ticAt (s : List Char) : Bool :=
  startsCh "tic_".data s &&
    (match s.drop 4 with
     | c :: _ => isWordChar c
     | [] => false)

/-- Greedy `\w+` capture. -/
def takeWord (s : List Char) : List Char :=
  s.takeWhile isWordChar

/-- Scan for the first `tic_\w+` token reachable through a `.*?` gap (no
newline may be consumed by the gap); returns the greedy capture. -/
def seekTicCapture : List Char → Option (List Char)
  | [] => none
  | c :: cs =>
    if ticAt (c :: cs) then some ("tic_".data ++ takeWord ((c :: cs).drop 4))
    else if c == '\n' then none
    else seekTicCapture cs

/-- `re.search(r"\b(cancel|delete|remove).*?(tic_\w+)", s)`: group 2 of the
leftmost match, or none.  All three verbs have length 6. -/
def findCancelCap : Option Char → List Char → Option (List Char)
  | _, [] => none
  | prev, c :: cs =>
    if boundaryOK prev &&
        startsAny ["cancel".data, "delete".data, "remove".data] (c :: cs) then
      match seekTicCapture ((c :: cs).drop 6) with
      | some cap => some cap
      | none => findCancelCap (some c) cs
    else findCancelCap (some c) cs

/-- Length of the book verb (`book|buy|purchase|reserve|get`) matching at the
head of `s`; the alternatives are mutually non-overlapping at a fixed
position. -/
def bookVerbLen (s : List Char) : Option Nat :=
  if startsCh "book".data s then some 4
  else if startsCh "buy".data s then some 3
  else if startsCh "purchase".data s then some 8
  else if startsCh "reserve".data s then some 7
  else if startsCh "get".data s then some 3
  else none

/-- Does `evt\d+` match at the head of `s`? -/
def evtAt (s : List Char) : Bool :=
  startsCh "evt".data s &&
    (match s.drop 3 with
     | c :: _ => c.isDigit
     | [] => false)

/-- Scan for the first `evt\d+` token reachable through a `.*?` gap; returns
the greedy capture. -/
def seekEvtCapture : List Char → Option (List Char)
  | [] => none
  | c :: cs =>
    if evtAt (c :: cs) then
      some ("evt".data ++ ((c :: cs).drop 3).takeWhile Char.isDigit)
    else if c == '\n' then none
    else seekEvtCapture cs

/-- `re.search(r"\b(book|buy|purchase|reserve|get).*?(evt\d+)", s)`: group 2
of the leftmost match, or none. -/
def findBookEvtCap : Option Char → List Char → Option (List Char)
  | _, [] => none
  | prev, c :: cs =>
    if boundaryOK prev then
      match bookVerbLen (c :: cs) with
      | some n =>
        match seekEvtCapture ((c :: cs).drop n) with
        | some cap => some cap
        | none => findBookEvtCap (some c) cs
      | none => findBookEvtCap (some c) cs
    else findBookEvtCap (some c) cs

/-- Decimal value of a digit list. -/
def natOfDigits (ds : List Char) : Nat :=
  ds.foldl (fun acc c => acc * 10 + (c.toNat - '0'.toNat)) 0

/-- `re.search(r"\b(\d+)\s*(?:ticket|seat|spot)", s)`: the captured quantity
of the leftmost match.  Backtracking inside `\d+` cannot help (a shorter
digit capture leaves a digit where `\s*(?:ticket|seat|spot)` can never
start), so only the greedy capture has to be tried at each position. -/
def findQtyCap : Option Char → List Char → Option Nat
  | _, [] => none
  | prev, c :: cs =>
    if boundaryOK prev && c.isDigit then
      let ds := (c :: cs).takeWhile Char.isDigit
      let rest := ((c :: cs).drop ds.length).dropWhile isPySpace
      if startsAny ["ticket".data, "seat".data, "spot".data] rest then
        some (natOfDigits ds)
      else findQtyCap (some c) cs
    else findQtyCap (some c) cs

/-- `re.search(r"\b(book|buy|purchase|reserve|get)\s+(that|it|this)", s)` as
a boolean: a book verb at a word boundary, at least one whitespace
character, then a demonstrative prefix (no trailing boundary is required by
the pattern). -/
def bookRefMatch : Option Char → List Char → Bool
  | _, [] => false
  | prev, c :: cs =>
    (boundaryOK prev &&
      (match bookVerbLen (c :: cs) with
       | some n =>
         let rest := (c :: cs).drop n
         let rest2 := rest.dropWhile isPySpace
         decide (rest2.length < rest.length) &&
           startsAny ["that".data, "it".data, "this".data] rest2
       | none => false))
    || bookRefMatch (some c) cs

/-- Length of the my-tickets verb (`my|show|view|list|get`) matching at the
head of `s`. -/
def myVerbLen (s : List Char) : Option Nat :=
  if startsCh "my".data s then some 2
  else if startsCh "show".data s then some 4
  else if startsCh "view".data s then some 4
  else if startsCh "list".data s then some 4
  else if startsCh "get".data s then some 3
  else none

/-- Is one of the keywords reachable through a `.*?` gap? -/
def seekKw (kws : List (List Char)) : List Char → Bool
  | [] => false
  | c :: cs => startsAny kws (c :: cs) || (!(c == '\n') && seekKw kws cs)

/-- `re.search(r"\b(my|show|view|list|get).*?(ticket|booking)", s)` as a
boolean. -/
def myTicketsMatch : Option Char → List Char → Bool
  | _, [] => false
  | prev, c :: cs =>
    (boundaryOK prev &&
      (match myVerbLen (c :: cs) with
       | some n => seekKw ["ticket".data, "booking".data] ((c :: cs).drop n)
       | none => false))
    || myTicketsMatch (some c) cs

/-- `re.search(r"\b(similar|like|related|comparable)", s)` as a boolean. -/
def similarMatch : Option Char → List Char → Bool
  | _, [] => false
  | prev, c :: cs =>
    (boundaryOK prev &&
      startsAny ["similar".data, "like".data, "related".data, "comparable".data]
        (c :: cs))
    || similarMatch (some c) cs

/-- Length of the details keyword
(`price|cost|how much|details|info|tell me about`) matching at the head of
`s`. -/
def detailsKwLen (s : List Char) : Option Nat :=
  if startsCh "price".data s then some 5
  else if startsCh "cost".data s then some 4
  else if startsCh "how much".data s then some 8
  else if startsCh "details".data s then some 7
  else if startsCh "info".data s then some 4
  else if startsCh "tell me about".data s then some 13
  else none

/-- Trailing `\b` after `n` consumed word characters: end of string or a
non-word character next. -/
def trailingBoundary (s : List Char) (n : Nat) : Bool :=
  match s.drop n with
  | [] => true
  | c :: _ => !isWordChar c

/-- `re.search(r"\b(price|cost|how much|details|info|tell me about)\b", s)`
as a boolean. -/
def detailsKwMatch : Option Char → List Char → Bool
  | _, [] => false
  | prev, c :: cs =>
    (boundaryOK prev &&
      (match detailsKwLen (c :: cs) with
       | some n => trailingBoundary (c :: cs) n
       | none => false))
    || detailsKwMatch (some c) cs

/-- `re.search(r"\b(that|it|this|first|second)", s)` as a boolean. -/
def refWordMatch : Option Char → List Char → Bool
  | _, [] => false
  | prev, c :: cs =>
    (boundaryOK prev &&
      startsAny
        ["that".data, "it".data, "this".data, "first".data, "second".data]
        (c :: cs))
    || refWordMatch (some c) cs

/-- The tagged intent values returned by `extract_intent`. -/
inductive Intent where
  | cancel (bookingId : String)
  | book (eventId : String) (quantity : Nat)
  | myTickets
  | similar (eventId : String)
  | details (eventId : String)
  | search (query : String)
deriving DecidableEq

/-- `ConversationManager.extract_intent(message)`, with the session
context's mentioned-events list passed explicitly (the source consults
`self.context_manager.resolve_reference`).  The pattern cascade and its
fall-throughs (an unresolvable reference in the book-by-reference, similar
and details branches falls through to the next pattern) follow the source's
control flow. -/
def extractIntent (mentioned : List String) (message : String) : Intent :=
  let ml := pyLower message.data
  match findCancelCap none ml with
  | some bid => .cancel (String.mk bid)
  | none =>
    match findBookEvtCap none ml with
    | some eid => .book (String.mk eid) ((findQtyCap none ml).getD 1)
    | none =>
      match (if bookRefMatch none ml then resolveReference mentioned message else none) with
      | some rid => .book rid ((findQtyCap none ml).getD 1)
      | none =>
        if myTicketsMatch none ml then .myTickets
        else
          match (if similarMatch none ml then resolveReference mentioned message else none) with
          | some rid => .similar rid
          | none =>
            match (if detailsKwMatch none ml && refWordMatch none ml then
                     resolveReference mentioned message
                   else none) with
            | some rid => .details rid
            | none => .search message

/-- Counterexample for claim C7 as stated: `"get that ticket"` contains a
book verb (`get`) followed by a demonstrative (`that`), its reference cannot
be resolved (no mentioned events), yet `extract_intent` returns the
my-tickets intent — the `\b(my|show|view|list|get).*?(ticket|booking)`
pattern fires before the search fallback — not the search intent with the
literal message. -/
theorem C7_counterexample :
    bookRefMatch none (pyLower (String.data "get that ticket")) = true
    ∧ resolveReference [] "get that ticket" = none
    ∧ extractIntent [] "get that ticket" = Intent.myTickets
    ∧ ¬ extractIntent [] "get that ticket" = Intent.search "get that ticket" := by
  decide

/-- Claim C7 as amended: for every message that contains a book verb
followed by a demonstrative, whose reference cannot be resolved because the
session context has no mentioned events, and that matches none of the
cancel, explicit-event-id-booking and my-tickets patterns, `extract_intent`
returns the search intent with the literal message.  (With no mentioned
events the similar and details branches cannot capture the message either,
since they require a resolvable reference.) -/
theorem C7_unresolved_book_reference_degrades_to_search
    (mentioned : List String) (message : String)
    (href : bookRefMatch none (pyLower message.data) = true)
    (hres : mentioned = [])
    (hcancel : findCancelCap none (pyLower message.data) = none)
    (hevt : findBookEvtCap none (pyLower message.data) = none)
    (hmy : myTicketsMatch none (pyLower message.data) = false) :
    extractIntent mentioned message = Intent.search message := by
  subst hres
  simp [extractIntent, href, hcancel, hevt, hmy, resolveReference_nil]

/-- Witness for the amended C7 at the concrete message `"book that"`. -/
theorem C7_witness :
    extractIntent [] "book that" = Intent.search "book that" :=
  C7_unresolved_book_reference_degrades_to_search [] "book that"
    (by decide) rfl (by decide) (by decide) (by decide)

/-! ## Python dictionaries as ordered association lists

`tickets.json` (phone number → bookings) and the Redis result cache are both
key-value stores; Python dict semantics are modelled by ordered association
lists with unique keys: lookup finds the first matching key, update replaces
the first matching entry in place or appends a new one, deletion removes the
first matching entry. -/

/-- Dictionary lookup: the value at the first matching key. -/
def assocGet {α : Type} (db : List (String × α)) (k : String) : Option α :=
  match db with
  | [] => none
  | e :: es => if e.1 = k then some e.2 else assocGet es k

/-- Dictionary update `db[k] = v`. -/
def assocSet {α : Type} (db : List (String × α)) (k : String) (v : α) : List (String × α) :=
  match db with
  | [] => [(k, v)]
  | e :: es => if e.1 = k then (k, v) :: es else e :: assocSet es k v

/-- Dictionary deletion `del db[k]`. -/
def assocDelete {α : Type} (db : List (String × α)) (k : String) : List (String × α) :=
  match db with
  | [] => []
  | e :: es => if e.1 = k then es else e :: assocDelete es k

theorem assocGet_assocSet_self {α : Type} (db : List (String × α)) (k : String) (v : α) :
    assocGet (assocSet db k v) k = some v := by
  induction db with
  | nil => simp [assocGet, assocSet]
  | cons e es ih =>
    by_cases h : e.1 = k
    · simp [assocGet, assocSet, h]
    · simp [assocGet, assocSet, h, ih]

/-! ## Semantic search engine (`backend/rag_engine.py`)

The sentence-transformer embedding model is external; it is modelled as an
explicit parameter `embed : String → List ℚ`.  FAISS `IndexFlatL2` computes
squared Euclidean distances and returns the `k` nearest stored vectors in
non-decreasing distance order; float arithmetic is idealised as exact
rational arithmetic. -/

/-- An embedding vector. -/
abbrev Emb := List ℚ

/-- The searchable fields of an event record used by the engine. -/
structure RagEvent where
  id : String
  name : String
  type : String
  location : String
deriving DecidableEq

/-- The focused searchable text built in `build_index`:
`f"{name} {type} {location}"`. -/
def eventText (ev : RagEvent) : String :=
  ev.name ++ " " ++ ev.type ++ " " ++ ev.location

/-- The `RAGEngine` state: catalog, searchable texts, optional FAISS index
(the stored embedding vectors), and the embedding model. -/
structure RAGEngine where
  embed : String → Emb
  events : List RagEvent
  eventTexts : List String
  index : Option (List Emb)

/-- `RAGEngine.build_index()`: on an empty catalog it returns early and the
index stays unbuilt; otherwise it derives the searchable texts and embeds
them into the index. -/
def buildIndex (embed : String → Emb) (events : List RagEvent) : RAGEngine :=
  if events.isEmpty then
    { embed := embed, events := events, eventTexts := [], index := none }
  else
    { embed := embed, events := events
      eventTexts := events.map eventText
      index := some ((events.map eventText).map embed) }

/-- Squared Euclidean distance of two embedding vectors
(FAISS `IndexFlatL2` metric). -/
def sqDist (a b : Emb) : ℚ :=
  ((a.zip b).map (fun p => (p.1 - p.2) * (p.1 - p.2))).sum

/-- The relevance score `1 / (1 + d)` computed from a distance. -/
def relOf (d : ℚ) : ℚ := 1 / (1 + d)

/-- One search result: an event together with its `_relevance` score. -/
structure SearchHit where
  event : RagEvent
  relevance : ℚ
deriving DecidableEq

/-- All (distance, index) pairs of the stored vectors against a query
embedding. -/
def distPairs (q : Emb) (idx : List Emb) : List (ℚ × Nat) :=
  (List.range idx.length).map (fun i => (sqDist q (idx.getD i []), i))

/-- Comparison of (distance, index) pairs by distance. -/
def distLe (a b : ℚ × Nat) : Prop := a.1 ≤ b.1

instance : DecidableRel distLe :=
  fun a b => inferInstanceAs (Decidable (a.1 ≤ b.1))

instance : IsTotal (ℚ × Nat) distLe :=
  ⟨fun a b => le_total a.1 b.1⟩

instance : IsTrans (ℚ × Nat) distLe :=
  ⟨fun _ _ _ hab hbc => le_trans hab hbc⟩

/-- FAISS `index.search(q, k)`: the `k` nearest stored vectors, in
non-decreasing squared-distance order. -/
def faissSearch (q : Emb) (idx : List Emb) (k : Nat) : List (ℚ × Nat) :=
  (List.insertionSort distLe (distPairs q idx)).take k

/-- `RAGEngine.search` without a cache client (`self.redis_client is None`):
guard on an unbuilt index or empty catalog, embed the query, retrieve the
`min(top_k, len(events))` nearest vectors, attach `_relevance = 1/(1+d)`,
and keep only results with relevance above `0.3`. -/
def searchNoCache (e : RAGEngine) (query : String) (topK : Nat) : List SearchHit :=
  match e.index with
  | none => []
  | some idx =>
    if e.events.isEmpty then []
    else
      let pairs := faissSearch (e.embed query) idx (min topK e.events.length)
      let results := pairs.filterMap (fun p =>
        if h : p.2 < e.events.length then
          some { event := e.events.get ⟨p.2, h⟩, relevance := relOf p.1 }
        else none)
      results.filter (fun r => decide ((3 : ℚ) / 10 < r.relevance))

/-- `RAGEngine.get_event_by_id`: first event with the given id. -/
def getEventById (events : List RagEvent) (eventId : String) : Option RagEvent :=
  match events with
  | [] => none
  | e :: es => if e.id = eventId then some e else getEventById es eventId

/-- `next((i for i, e in enumerate(events) if e["id"] == event_id), -1)`,
with `-1` modelled as `none`. -/
def idxOfId (events : List RagEvent) (eventId : String) : Option Nat :=
  match events with
  | [] => none
  | e :: es =>
    if e.id = eventId then some 0 else (idxOfId es eventId).map (· + 1)

/-- `RAGEngine.find_similar_events(event_id, top_k)`: reuse the source
event's own indexed text as the query, request `top_k + 1` results, drop any
result whose id equals the source id, and keep at most `top_k`. -/
def findSimilarEvents (e : RAGEngine) (eventId : String) (topK : Nat) : List SearchHit :=
  match getEventById e.events eventId with
  | none => []
  | some _ =>
    match idxOfId e.events eventId with
    | none => []
    | some sourceIdx =>
      let queryText := e.eventTexts.getD sourceIdx ""
      let results := searchNoCache e queryText (topK + 1)
      (results.filter (fun r => decide (¬ r.event.id = eventId))).take topK

theorem sqDist_nonneg (a b : Emb) : 0 ≤ sqDist a b := by
  unfold sqDist
  apply List.sum_nonneg
  intro x hx
  simp only [List.mem_map] at hx
  obtain ⟨p, _, rfl⟩ := hx
  exact mul_self_nonneg _

theorem mem_distPairs {q : Emb} {idx : List Emb} {p : ℚ × Nat}
    (h : p ∈ distPairs q idx) :
    p.2 < idx.length ∧ p.1 = sqDist q (idx.getD p.2 []) := by
  unfold distPairs at h
  simp only [List.mem_map, List.mem_range] at h
  obtain ⟨i, hi, rfl⟩ := h
  exact ⟨hi, rfl⟩

theorem mem_faissSearch {q : Emb} {idx : List Emb} {k : Nat} {p : ℚ × Nat}
    (h : p ∈ faissSearch q idx k) : p ∈ distPairs q idx :=
  (List.perm_insertionSort distLe _).subset (List.take_subset _ _ h)

theorem sorted_faissSearch (q : Emb) (idx : List Emb) (k : Nat) :
    (faissSearch q idx k).Pairwise distLe :=
  List.Pairwise.sublist (List.take_sublist _ _) (List.sorted_insertionSort distLe _)

theorem pairwise_filterMap_of_pairwise {α β : Type} {R : α → α → Prop}
    {S : β → β → Prop} (f : α → Option β) {l : List α} (h : l.Pairwise R)
    (hf : ∀ a b x y, R a b → f a = some x → f b = some y → S x y) :
    (l.filterMap f).Pairwise S := by
  induction l with
  | nil => simp
  | cons a l ih =>
    cases h with
    | cons ha hl =>
      cases hfa : f a with
      | none => simpa [List.filterMap_cons, hfa] using ih hl
      | some x =>
        simp only [List.filterMap_cons, hfa]
        refine List.Pairwise.cons ?_ (ih hl)
        intro y hy
        obtain ⟨b, hb, hfb⟩ := List.mem_filterMap.mp hy
        exact hf a b x y (ha b hb) hfa hfb

theorem relOf_pos {d : ℚ} (h : 0 ≤ d) : 0 < relOf d :=
  one_div_pos.mpr (by linarith)

theorem relOf_le_one {d : ℚ} (h : 0 ≤ d) : relOf d ≤ 1 := by
  unfold relOf
  rw [div_le_one (by linarith)]
  linarith

theorem relOf_anti {d1 d2 : ℚ} (h0 : 0 ≤ d1) (h : d1 < d2) : relOf d2 < relOf d1 :=
  one_div_lt_one_div_of_lt (by linarith) (by linarith)

theorem relOf_anti_le {d1 d2 : ℚ} (h0 : 0 ≤ d1) (h : d1 ≤ d2) :
    relOf d2 ≤ relOf d1 :=
  one_div_le_one_div_of_le (by linarith) (by linarith)

/-- Default event record used to state `getD`-based lookups. -/
def dfltEvent : RagEvent := { id := "", name := "", type := "", location := "" }

/-- Unfolding equation for `searchNoCache` over a freshly built non-empty
index. -/
theorem searchNoCache_built (embed : String → Emb) (events : List RagEvent)
    (query : String) (topK : Nat) (hev : events.isEmpty = false) :
    searchNoCache (buildIndex embed events) query topK =
      ((faissSearch (embed query) ((events.map eventText).map embed)
          (min topK events.length)).filterMap (fun p =>
            if h : p.2 < events.length then
              some { event := events.get ⟨p.2, h⟩, relevance := relOf p.1 }
            else none)).filter (fun r => decide ((3 : ℚ) / 10 < r.relevance)) := by
  simp [searchNoCache, buildIndex, hev]

/-- Characterisation of the hits returned by `searchNoCache`: each comes from
a stored vector, carries `relOf` of its squared distance to the query
embedding, and passed the `0.3` threshold filter. -/
theorem mem_searchNoCache {e : RAGEngine} {query : String} {topK : Nat}
    {r : SearchHit} (h : r ∈ searchNoCache e query topK) :
    ∃ idx, e.index = some idx ∧
      ∃ i, i < e.events.length
        ∧ i < idx.length
        ∧ r.event = e.events.getD i dfltEvent
        ∧ r.relevance = relOf (sqDist (e.embed query) (idx.getD i []))
        ∧ (3 : ℚ) / 10 < r.relevance := by
  cases hidx : e.index with
  | none => simp [searchNoCache, hidx] at h
  | some idx =>
    by_cases hev : e.events.isEmpty
    · simp [searchNoCache, hidx, hev] at h
    · simp only [searchNoCache, hidx, hev, Bool.false_eq_true, if_false,
        eq_false_of_ne_true hev, if_neg] at h
      obtain ⟨hmem, hrel⟩ := List.mem_filter.mp h
      obtain ⟨p, hp, hpr⟩ := List.mem_filterMap.mp hmem
      by_cases hlt : p.2 < e.events.length
      · rw [dif_pos hlt] at hpr
        obtain ⟨hplen, hpd⟩ := mem_distPairs (mem_faissSearch hp)
        injection hpr with hpr
        subst hpr
        refine ⟨idx, rfl, p.2, hlt, hplen, ?_, ?_, of_decide_eq_true hrel⟩
        · simp only
          rw [List.getD_eq_getElem _ _ hlt, List.get_eq_getElem]
        · simp only
          rw [hpd]
      · rw [dif_neg hlt] at hpr
        exact absurd hpr (by simp)

/-- Claim C3: on an index built from a catalog, `search` returns at most
`top_k` events; each carries relevance `1/(1+d)` for `d` the squared
Euclidean distance between its embedded searchable text and the query
embedding; the scoring function is positive, at most one, and strictly
decreasing in the distance; every returned hit scores strictly above `0.3`;
hits are ordered nearest-first (non-increasing relevance); and searching an
index built from an empty catalog, or an engine whose index was never
built, returns the empty list. -/
theorem C3_search_spec (embed : String → Emb) (events : List RagEvent)
    (query : String) (topK : Nat) :
    (searchNoCache (buildIndex embed events) query topK).length ≤ topK
    ∧ (∀ r ∈ searchNoCache (buildIndex embed events) query topK,
        ∃ i, i < events.length
          ∧ r.event = events.getD i dfltEvent
          ∧ r.relevance =
              relOf (sqDist (embed query) (embed (eventText (events.getD i dfltEvent))))
          ∧ (3 : ℚ) / 10 < r.relevance)
    ∧ (∀ d : ℚ, 0 ≤ d → 0 < relOf d ∧ relOf d ≤ 1 ∧ relOf d = 1 / (1 + d))
    ∧ (∀ d1 d2 : ℚ, 0 ≤ d1 → d1 < d2 → relOf d2 < relOf d1)
    ∧ ((searchNoCache (buildIndex embed events) query topK).map
        SearchHit.relevance).Pairwise (fun a b => b ≤ a)
    ∧ (events = [] → searchNoCache (buildIndex embed events) query topK = [])
    ∧ (∀ ev txt,
        searchNoCache { embed := embed, events := ev, eventTexts := txt, index := none }
          query topK = []) := by
  by_cases hev : events.isEmpty
  · have hnil : events = [] := List.isEmpty_iff.mp hev
    subst hnil
    refine ⟨?_, ?_, ?_, ?_, ?_, ?_, ?_⟩
    · simp [searchNoCache, buildIndex]
    · intro r hr; simp [searchNoCache, buildIndex] at hr
    · exact fun d hd => ⟨relOf_pos hd, relOf_le_one hd, rfl⟩
    · exact fun d1 d2 h0 h => relOf_anti h0 h
    · simp [searchNoCache, buildIndex]
    · intro _; simp [searchNoCache, buildIndex]
    · intro ev txt; simp [searchNoCache]
  · have hev' : events.isEmpty = false := eq_false_of_ne_true hev
    have heq := searchNoCache_built embed events query topK hev'
    have hbE : (buildIndex embed events).events = events := by
      unfold buildIndex; split <;> rfl
    have hbM : (buildIndex embed events).embed = embed := by
      unfold buildIndex; split <;> rfl
    have hbI : (buildIndex embed events).index =
        some ((events.map eventText).map embed) := by
      simp [buildIndex, hev']
    refine ⟨?_, ?_, ?_, ?_, ?_, ?_, ?_⟩
    · rw [heq]
      have h1 := List.length_filter_le
        (fun r : SearchHit => decide ((3 : ℚ) / 10 < r.relevance))
        ((faissSearch (embed query) ((events.map eventText).map embed)
          (min topK events.length)).filterMap (fun p : ℚ × Nat =>
            if h : p.2 < events.length then
              some ({ event := events.get ⟨p.2, h⟩, relevance := relOf p.1 } : SearchHit)
            else none))
      have h2 := List.length_filterMap_le
        (fun p : ℚ × Nat =>
          if h : p.2 < events.length then
            some ({ event := events.get ⟨p.2, h⟩, relevance := relOf p.1 } : SearchHit)
          else none)
        (faissSearch (embed query) ((events.map eventText).map embed)
          (min topK events.length))
      have h3 : (faissSearch (embed query) ((events.map eventText).map embed)
          (min topK events.length)).length ≤ min topK events.length := by
        unfold faissSearch; rw [List.length_take]; exact min_le_left _ _
      have h4 : min topK events.length ≤ topK := min_le_left _ _
      omega
    · intro r hr
      obtain ⟨idx, hidx, i, hi, hilen, hevt, hrel, hthr⟩ := mem_searchNoCache hr
      rw [hbE] at hi hevt
      rw [hbM] at hrel
      rw [hbI] at hidx
      injection hidx with hidx
      subst hidx
      have hlen1 : i < ((events.map eventText).map embed).length := hilen
      have hx : ((events.map eventText).map embed).getD i [] =
          embed (eventText (events.getD i dfltEvent)) := by
        rw [List.getD_eq_getElem _ _ hlen1, List.getElem_map, List.getElem_map,
          List.getD_eq_getElem _ _ hi]
      exact ⟨i, hi, hevt, by rw [hrel, hx], hthr⟩
    · exact fun d hd => ⟨relOf_pos hd, relOf_le_one hd, rfl⟩
    · exact fun d1 d2 h0 h => relOf_anti h0 h
    · rw [heq, List.pairwise_map]
      apply List.Pairwise.sublist (List.filter_sublist _)
      have hpw : (faissSearch (embed query) ((events.map eventText).map embed)
          (min topK events.length)).Pairwise
            (fun a b => a.1 ≤ b.1 ∧ 0 ≤ a.1) := by
        refine List.Pairwise.imp_of_mem ?_ (sorted_faissSearch _ _ _)
        intro a b hma hmb hab
        refine ⟨hab, ?_⟩
        rw [(mem_distPairs (mem_faissSearch hma)).2]
        exact sqDist_nonneg _ _
      apply pairwise_filterMap_of_pairwise _ hpw
      intro a b x y hab hfa hfb
      by_cases ha : a.2 < events.length
      · by_cases hbb : b.2 < events.length
        · rw [dif_pos ha] at hfa
          rw [dif_pos hbb] at hfb
          have hxa : x.relevance = relOf a.1 := by cases hfa; rfl
          have hyb : y.relevance = relOf b.1 := by cases hfb; rfl
          rw [hxa, hyb]
          exact relOf_anti_le hab.2 hab.1
        · rw [dif_neg hbb] at hfb; exact absurd hfb (by simp)
      · rw [dif_neg ha] at hfa; exact absurd hfa (by simp)
    · intro h; subst h; simp at hev
    · intro ev txt; simp [searchNoCache]

/-- Witness for C3: a one-event catalog under a constant embedding, where
the single hit scores relevance 1 and satisfies the characterisation. -/
theorem C3_witness :
    ((⟨⟨"e1", "n", "t", "l"⟩, (1 : ℚ)⟩ : SearchHit) ∈
        searchNoCache (buildIndex (fun _ => ([0] : Emb)) [⟨"e1", "n", "t", "l"⟩]) "q" 1)
    ∧ (∃ i, i < [(⟨"e1", "n", "t", "l"⟩ : RagEvent)].length
        ∧ (⟨⟨"e1", "n", "t", "l"⟩, (1 : ℚ)⟩ : SearchHit).event =
            [(⟨"e1", "n", "t", "l"⟩ : RagEvent)].getD i dfltEvent
        ∧ (⟨⟨"e1", "n", "t", "l"⟩, (1 : ℚ)⟩ : SearchHit).relevance =
            relOf (sqDist ((fun _ : String => ([0] : Emb)) "q")
              ((fun _ : String => ([0] : Emb))
                (eventText ([(⟨"e1", "n", "t", "l"⟩ : RagEvent)].getD i dfltEvent))))
        ∧ (3 : ℚ) / 10 <
            (⟨⟨"e1", "n", "t", "l"⟩, (1 : ℚ)⟩ : SearchHit).relevance) := by
  have hl : searchNoCache (buildIndex (fun _ => ([0] : Emb))
      [⟨"e1", "n", "t", "l"⟩]) "q" 1 = [⟨⟨"e1", "n", "t", "l"⟩, (1 : ℚ)⟩] := by
    norm_num [searchNoCache, buildIndex, faissSearch, distPairs, sqDist, relOf,
      List.insertionSort, List.orderedInsert, eventText, List.filterMap_cons,
      List.filter_cons]
  have hmem : (⟨⟨"e1", "n", "t", "l"⟩, (1 : ℚ)⟩ : SearchHit) ∈
      searchNoCache (buildIndex (fun _ => ([0] : Emb)) [⟨"e1", "n", "t", "l"⟩]) "q" 1 := by
    rw [hl]
    exact List.mem_singleton.mpr rfl
  exact ⟨hmem,
    (C3_search_spec (fun _ => [0]) [⟨"e1", "n", "t", "l"⟩] "q" 1).2.1 _ hmem⟩

theorem buildIndex_events (embed : String → Emb) (events : List RagEvent) :
    (buildIndex embed events).events = events := by
  unfold buildIndex; split <;> rfl

theorem getEventById_eq_none {events : List RagEvent} {eventId : String}
    (h : ∀ ev ∈ events, ¬ ev.id = eventId) :
    getEventById events eventId = none := by
  induction events with
  | nil => rfl
  | cons e es ih =>
    unfold getEventById
    rw [if_neg (h e (List.mem_cons_self e es))]
    exact ih (fun ev hev => h ev (List.mem_cons_of_mem e hev))

theorem getEventById_isSome_of_idxOfId {events : List RagEvent}
    {eventId : String} {i : Nat} (h : idxOfId events eventId = some i) :
    ∃ ev, getEventById events eventId = some ev := by
  induction events generalizing i with
  | nil => exact absurd h (by simp [idxOfId])
  | cons e es ih =>
    unfold idxOfId at h
    unfold getEventById
    by_cases he : e.id = eventId
    · exact ⟨e, by rw [if_pos he]⟩
    · rw [if_neg he] at h
      rw [if_neg he]
      obtain ⟨j, hj, _⟩ := Option.map_eq_some'.mp h
      exact ih hj

/-- Unfolding equation for `findSimilarEvents`. -/
theorem findSimilarEvents_eq (e : RAGEngine) (eventId : String) (topK : Nat) :
    findSimilarEvents e eventId topK =
      match getEventById e.events eventId, idxOfId e.events eventId with
      | some _, some i =>
          ((searchNoCache e (e.eventTexts.getD i "") (topK + 1)).filter
            (fun r => decide (¬ r.event.id = eventId))).take topK
      | _, _ => [] := by
  unfold findSimilarEvents
  cases getEventById e.events eventId <;>
    cases idxOfId e.events eventId <;> rfl

/-- Claim C4: `find_similar_events` never returns the source event itself;
it returns at most `top_k` hits; for an id absent from the catalog it
returns the empty list; and when the id is present at (first) position `i`
it equals the `top_k + 1`-result search for the source event's own indexed
text, with results matching the source id removed and the rest truncated to
`top_k`. -/
theorem C4_find_similar_spec (embed : String → Emb) (events : List RagEvent)
    (eventId : String) (topK : Nat) :
    (∀ r ∈ findSimilarEvents (buildIndex embed events) eventId topK,
        ¬ r.event.id = eventId)
    ∧ (findSimilarEvents (buildIndex embed events) eventId topK).length ≤ topK
    ∧ ((∀ ev ∈ events, ¬ ev.id = eventId) →
        findSimilarEvents (buildIndex embed events) eventId topK = [])
    ∧ (∀ i, idxOfId events eventId = some i →
        findSimilarEvents (buildIndex embed events) eventId topK =
          ((searchNoCache (buildIndex embed events)
              ((buildIndex embed events).eventTexts.getD i "") (topK + 1)).filter
            (fun r => decide (¬ r.event.id = eventId))).take topK) := by
  have heq := findSimilarEvents_eq (buildIndex embed events) eventId topK
  rw [buildIndex_events] at heq
  refine ⟨?_, ?_, ?_, ?_⟩
  · intro r hr
    rw [heq] at hr
    cases hg : getEventById events eventId with
    | none => rw [hg] at hr; simp at hr
    | some ev =>
      cases hi : idxOfId events eventId with
      | none => rw [hg, hi] at hr; simp at hr
      | some i =>
        rw [hg, hi] at hr
        simp only at hr
        have hr2 := List.mem_filter.mp (List.mem_of_mem_take hr)
        exact of_decide_eq_true hr2.2
  · rw [heq]
    cases hg : getEventById events eventId with
    | none => simp
    | some ev =>
      cases hi : idxOfId events eventId with
      | none => simp
      | some i => simp only []; exact List.length_take_le _ _
  · intro h
    rw [heq, getEventById_eq_none h]
  · intro i hi
    obtain ⟨ev, hg⟩ := getEventById_isSome_of_idxOfId hi
    rw [heq, hg, hi]

/-- Witness for C4: in a two-event catalog under a constant embedding, the
event most similar to `e1` is `e2` (never `e1` itself), and an id absent
from the catalog yields the empty list. -/
theorem C4_witness :
    (¬ (⟨⟨"e2", "n", "t", "l"⟩, (1 : ℚ)⟩ : SearchHit).event.id = "e1")
    ∧ findSimilarEvents (buildIndex (fun _ => ([0] : Emb))
        [⟨"e1", "n", "t", "l"⟩, ⟨"e2", "n", "t", "l"⟩]) "zzz" 3 = [] := by
  have hl : findSimilarEvents (buildIndex (fun _ => ([0] : Emb))
      [⟨"e1", "n", "t", "l"⟩, ⟨"e2", "n", "t", "l"⟩]) "e1" 3 =
      [⟨⟨"e2", "n", "t", "l"⟩, (1 : ℚ)⟩] := by
    norm_num [findSimilarEvents, getEventById, idxOfId, searchNoCache, buildIndex,
      faissSearch, distPairs, sqDist, relOf, distLe, List.insertionSort,
      List.orderedInsert, eventText, List.filterMap_cons, List.filter_cons]
    rw [if_neg (by decide : ¬ ("e2" : String) = "e1")]
    rfl
  have hmem : (⟨⟨"e2", "n", "t", "l"⟩, (1 : ℚ)⟩ : SearchHit) ∈
      findSimilarEvents (buildIndex (fun _ => ([0] : Emb))
        [⟨"e1", "n", "t", "l"⟩, ⟨"e2", "n", "t", "l"⟩]) "e1" 3 := by
    rw [hl]
    exact List.mem_singleton.mpr rfl
  exact ⟨(C4_find_similar_spec (fun _ => [0])
      [⟨"e1", "n", "t", "l"⟩, ⟨"e2", "n", "t", "l"⟩] "e1" 3).1 _ hmem,
    (C4_find_similar_spec (fun _ => [0])
      [⟨"e1", "n", "t", "l"⟩, ⟨"e2", "n", "t", "l"⟩] "zzz" 3).2.2.1 (by decide)⟩

/-! ## Result cache (`RAGEngine._cache_key` / `RAGEngine.search`)

The Redis result cache is a TTL-bounded key-value store; it is modelled as
an association list of cached result sequences (JSON serialisation is taken
as a faithful round-trip) plus two failure-injection flags standing for
exceptions raised by cache reads and writes, which the source catches and
logs.  The MD5 hex digest applied to the key material is an injective-use
deterministic function and is modelled as the identity on its input. -/

/-- `str.lower()` on a `String`. -/
def pyLowerStr (s : String) : String := String.mk (pyLower s.data)

/-- `str.strip()` on a `String`. -/
def pyStripStr (s : String) : String := String.mk (pyStrip s.data)

/-- `RAGEngine._cache_key`: a deterministic key derived from
`f"{query.lower().strip()}:{top_k}"` under the `rag:search:` prefix. -/
def cacheKey (query : String) (topK : Nat) : String :=
  "rag:search:" ++ pyStripStr (pyLowerStr query) ++ ":" ++ toString topK

/-- Cache client state: stored entries plus failure-injection flags for the
`try/except` blocks around `redis.get` and `redis.set`. -/
structure CacheState where
  entries : List (String × List SearchHit)
  readFails : Bool
  writeFails : Bool
deriving DecidableEq

/-- A cache read: an exception (`readFails`) behaves exactly like a miss —
the source logs it and falls through to the computation. -/
def cacheRead (c : CacheState) (k : String) : Option (List SearchHit) :=
  if c.readFails then none else assocGet c.entries k

/-- A cache write: an exception (`writeFails`) leaves the cache unchanged —
the source logs it and returns the computed results anyway. -/
def cacheWrite (c : CacheState) (k : String) (v : List SearchHit) : CacheState :=
  if c.writeFails then c else { c with entries := assocSet c.entries k v }

/-- `RAGEngine.search` with the caching layer: the empty-guard runs first;
with a cache client present a hit short-circuits the computation entirely;
a miss computes and writes through only non-empty result sets.  The third
component records whether the expensive path (query embedding plus index
search) ran. -/
def searchCached (e : RAGEngine) (cache : Option CacheState) (query : String)
    (topK : Nat) : List SearchHit × Option CacheState × Bool :=
  match e.index with
  | none => ([], cache, false)
  | some _ =>
    if e.events.isEmpty then ([], cache, false)
    else
      match cache with
      | none => (searchNoCache e query topK, none, true)
      | some c =>
        match cacheRead c (cacheKey query topK) with
        | some cached => (cached, some c, false)
        | none =>
          let results := searchNoCache e query topK
          (results,
           some (if results.isEmpty then c
                 else cacheWrite c (cacheKey query topK) results),
           true)

theorem searchNoCache_unbuilt {e : RAGEngine} (hidx : e.index = none)
    (query : String) (topK : Nat) : searchNoCache e query topK = [] := by
  simp [searchNoCache, hidx]

theorem searchNoCache_emptyEvents {e : RAGEngine} {idx : List Emb}
    (hidx : e.index = some idx) (hev : e.events.isEmpty = true)
    (query : String) (topK : Nat) : searchNoCache e query topK = [] := by
  simp [searchNoCache, hidx, hev]

theorem searchCached_unbuilt {e : RAGEngine} (hidx : e.index = none)
    (cache : Option CacheState) (query : String) (topK : Nat) :
    searchCached e cache query topK = ([], cache, false) := by
  simp [searchCached, hidx]

theorem searchCached_emptyEvents {e : RAGEngine} {idx : List Emb}
    (hidx : e.index = some idx) (hev : e.events.isEmpty = true)
    (cache : Option CacheState) (query : String) (topK : Nat) :
    searchCached e cache query topK = ([], cache, false) := by
  simp [searchCached, hidx, hev]

/-- Unfolding equation for `searchCached` without a cache client, over a
built, non-empty index. -/
theorem searchCached_built_none {e : RAGEngine} {idx : List Emb}
    (hidx : e.index = some idx) (hev : e.events.isEmpty = false)
    (query : String) (topK : Nat) :
    searchCached e none query topK = (searchNoCache e query topK, none, true) := by
  simp [searchCached, hidx, hev]

/-- Unfolding equation for `searchCached` with a cache client, over a
built, non-empty index. -/
theorem searchCached_built_some {e : RAGEngine} {idx : List Emb}
    (hidx : e.index = some idx) (hev : e.events.isEmpty = false)
    (c : CacheState) (query : String) (topK : Nat) :
    searchCached e (some c) query topK =
      match cacheRead c (cacheKey query topK) with
      | some cached => (cached, some c, false)
      | none =>
        (searchNoCache e query topK,
         some (if (searchNoCache e query topK).isEmpty then c
               else cacheWrite c (cacheKey query topK) (searchNoCache e query topK)),
         true) := by
  simp [searchCached, hidx, hev]

theorem cacheRead_cacheWrite_self (c : CacheState) (k : String)
    (v : List SearchHit) (hr : c.readFails = false) (hw : c.writeFails = false) :
    cacheRead (cacheWrite c k v) k = some v := by
  simp [cacheRead, cacheWrite, hr, hw, assocGet_assocSet_self]

/-- Claim C9: the result cache is read-through and keyed by a deterministic
hash of the lowercased, stripped query text together with `top_k`: the key
only depends on the normalised query; a hit returns the cached sequence
with the expensive path not run; a miss computes normally and writes
through only a non-empty result set; a missing cache client or a failing
read degrades to the plain computation (the model is a total function, so
no failure is raised); and two identical calls against an unchanged index
return identical result sequences. -/
theorem C9_cache_read_through (e : RAGEngine) (c : CacheState)
    (cache : Option CacheState) (query : String) (topK : Nat) :
    (∀ q1 q2 k, pyStripStr (pyLowerStr q1) = pyStripStr (pyLowerStr q2) →
        cacheKey q1 k = cacheKey q2 k)
    ∧ (∀ idx, e.index = some idx → e.events.isEmpty = false →
        (∀ v, cacheRead c (cacheKey query topK) = some v →
          searchCached e (some c) query topK = (v, some c, false))
        ∧ (cacheRead c (cacheKey query topK) = none →
            (searchCached e (some c) query topK).1 = searchNoCache e query topK
            ∧ (searchCached e (some c) query topK).2.2 = true
            ∧ (searchNoCache e query topK = [] →
                (searchCached e (some c) query topK).2.1 = some c)
            ∧ (¬ searchNoCache e query topK = [] →
                (searchCached e (some c) query topK).2.1 =
                  some (cacheWrite c (cacheKey query topK)
                    (searchNoCache e query topK)))))
    ∧ (searchCached e none query topK).1 = searchNoCache e query topK
    ∧ (c.readFails = true →
        (searchCached e (some c) query topK).1 = searchNoCache e query topK)
    ∧ (searchCached e (searchCached e cache query topK).2.1 query topK).1 =
        (searchCached e cache query topK).1 := by
  refine ⟨?_, ?_, ?_, ?_, ?_⟩
  · intro q1 q2 k h
    unfold cacheKey
    rw [h]
  · intro idx hidx hev
    have heq := searchCached_built_some hidx hev c query topK
    constructor
    · intro v hv
      rw [heq, hv]
    · intro hv
      rw [heq, hv]
      refine ⟨rfl, rfl, ?_, ?_⟩
      · intro hres
        simp [hres]
      · intro hres
        simp only
        rw [if_neg (by simpa [List.isEmpty_iff] using hres)]
  · cases hidx : e.index with
    | none =>
      rw [searchCached_unbuilt hidx, searchNoCache_unbuilt hidx]
    | some idx =>
      cases hev : e.events.isEmpty with
      | true =>
        rw [searchCached_emptyEvents hidx hev, searchNoCache_emptyEvents hidx hev]
      | false =>
        rw [searchCached_built_none hidx hev]
  · intro hrf
    have hread : cacheRead c (cacheKey query topK) = none := by
      simp [cacheRead, hrf]
    cases hidx : e.index with
    | none =>
      rw [searchCached_unbuilt hidx, searchNoCache_unbuilt hidx]
    | some idx =>
      cases hev : e.events.isEmpty with
      | true =>
        rw [searchCached_emptyEvents hidx hev, searchNoCache_emptyEvents hidx hev]
      | false =>
        rw [searchCached_built_some hidx hev, hread]
  · cases hidx : e.index with
    | none =>
      rw [searchCached_unbuilt hidx]
      rw [searchCached_unbuilt hidx]
    | some idx =>
      cases hev : e.events.isEmpty with
      | true =>
        rw [searchCached_emptyEvents hidx hev]
        rw [searchCached_emptyEvents hidx hev]
      | false =>
        cases cache with
        | none =>
          rw [searchCached_built_none hidx hev]
          simp only
          rw [searchCached_built_none hidx hev]
        | some c0 =>
          rw [searchCached_built_some hidx hev]
          cases hr : cacheRead c0 (cacheKey query topK) with
          | some v =>
            simp only
            rw [searchCached_built_some hidx hev, hr]
          | none =>
            simp only
            cases hres : (searchNoCache e query topK).isEmpty with
            | true =>
              rw [if_pos rfl, searchCached_built_some hidx hev, hr]
            | false =>
              rw [if_neg (by simp : ¬ false = true)]
              rw [searchCached_built_some hidx hev]
              cases hrf : c0.readFails with
              | true =>
                have hrd : cacheRead (cacheWrite c0 (cacheKey query topK)
                    (searchNoCache e query topK)) (cacheKey query topK) = none := by
                  unfold cacheWrite
                  cases c0.writeFails <;> simp [cacheRead, hrf]
                rw [hrd]
              | false =>
                cases hwf : c0.writeFails with
                | true =>
                  have hcw : cacheWrite c0 (cacheKey query topK)
                      (searchNoCache e query topK) = c0 := by
                    simp [cacheWrite, hwf]
                  rw [hcw, hr]
                | false =>
                  rw [cacheRead_cacheWrite_self c0 _ _ hrf hwf]

/-- Witness for C9: key normalisation on a concrete query, a concrete cache
hit that short-circuits the computation, and a failing cache read that
degrades to the plain computation. -/
theorem C9_witness :
    cacheKey "  Jazz NIGHT " 5 = cacheKey "jazz night" 5
    ∧ searchCached (buildIndex (fun _ => ([0] : Emb)) [⟨"e1", "n", "t", "l"⟩])
        (some ⟨[(cacheKey "q" 2, [⟨⟨"e9", "x", "y", "z"⟩, (1 : ℚ)⟩])], false, false⟩)
        "q" 2 =
        ([⟨⟨"e9", "x", "y", "z"⟩, (1 : ℚ)⟩],
         some ⟨[(cacheKey "q" 2, [⟨⟨"e9", "x", "y", "z"⟩, (1 : ℚ)⟩])], false, false⟩,
         false)
    ∧ (searchCached (buildIndex (fun _ => ([0] : Emb)) [⟨"e1", "n", "t", "l"⟩])
        (some ⟨[], true, false⟩) "q" 2).1 =
        searchNoCache (buildIndex (fun _ => ([0] : Emb)) [⟨"e1", "n", "t", "l"⟩]) "q" 2 := by
  refine ⟨?_, ?_, ?_⟩
  · exact (C9_cache_read_through
      (buildIndex (fun _ => [0]) [⟨"e1", "n", "t", "l"⟩])
      ⟨[], true, false⟩ none "x" 0).1 "  Jazz NIGHT " "jazz night" 5 (by decide)
  · exact ((C9_cache_read_through
      (buildIndex (fun _ => [0]) [⟨"e1", "n", "t", "l"⟩])
      ⟨[(cacheKey "q" 2, [⟨⟨"e9", "x", "y", "z"⟩, (1 : ℚ)⟩])], false, false⟩
      none "q" 2).2.1 [[0]] rfl rfl).1 _ (by simp [cacheRead, assocGet])
  · exact (C9_cache_read_through
      (buildIndex (fun _ => [0]) [⟨"e1", "n", "t", "l"⟩])
      ⟨[], true, false⟩ none "q" 2).2.2.2.1 rfl

/-! ## Booking ledger (`backend/tools.py`)

`knowledge_base.json` is a list of event records with a mutable
`tickets_available` counter; `tickets.json` is a dict from phone number to
the user's booking list.  The booking id (`tic_<timestamp>`) and the
`booked_at` timestamp come from the wall clock and are passed explicitly. -/

/-- An event record as used by the booking tools. -/
structure KEvent where
  id : String
  name : String
  price : Int
  tickets_available : Int
deriving DecidableEq

/-- A booking record created by `book_ticket`. -/
structure Booking where
  booking_id : String
  event_id : String
  event_name : String
  quantity : Int
  total_price : Int
  booked_at : String
deriving DecidableEq

/-- Result of `book_ticket`. -/
inductive BookResult where
  | ok (b : Booking)
  | err (msg : String)
deriving DecidableEq

/-- Result of `cancel_ticket`. -/
inductive CancelResult where
  | ok (msg : String)
  | err (msg : String)
deriving DecidableEq

/-- The event lookup `{event["id"]: event for event in events}[event_id]`:
in a dict comprehension a later entry overwrites an earlier one, so this is
the last event with the given id. -/
def lookupEventLast (kb : List KEvent) (eventId : String) : Option KEvent :=
  (kb.filter (fun e => decide (e.id = eventId))).getLast?

/-- The in-place update loop over `kb_db["events"]`: add `d` to the
`tickets_available` of the first event with the given id (`break` after the
first hit). -/
def updAvailFirst : List KEvent → String → Int → List KEvent
  | [], _, _ => []
  | e :: es, eid, d =>
    if e.id = eid then
      { e with tickets_available := e.tickets_available + d } :: es
    else e :: updAvailFirst es eid d

/-- Python `list.remove(t)`: drop the first element equal to `t`. -/
def eraseFirstB : List Booking → Booking → List Booking
  | [], _ => []
  | b :: bs, t => if b = t then bs else b :: eraseFirstB bs t

/-- `tools.book_ticket(event_id, quantity, phone_number)`: look the event up
(last id match, as the dict comprehension does), fail when it is missing or
when fewer than `quantity` tickets remain; otherwise decrement the first
matching event's availability, create the booking record and append it to
the user's list (creating the key if absent). -/
def bookTicket (bookingId bookedAt eventId : String) (q : Int) (phone : String)
    (kb : List KEvent) (tdb : List (String × List Booking)) :
    BookResult × List KEvent × List (String × List Booking) :=
  match lookupEventLast kb eventId with
  | none => (.err ("Event ID \x27" ++ eventId ++ "\x27 not found."), kb, tdb)
  | some ev =>
    if ev.tickets_available < q then
      (.err ("Only " ++ toString ev.tickets_available ++ " tickets left for "
          ++ ev.name ++ "."), kb, tdb)
    else
      (.ok { booking_id := bookingId, event_id := eventId, event_name := ev.name,
             quantity := q, total_price := ev.price * q, booked_at := bookedAt },
       updAvailFirst kb eventId (-q),
       assocSet tdb phone (((assocGet tdb phone).getD []) ++
         [{ booking_id := bookingId, event_id := eventId, event_name := ev.name,
            quantity := q, total_price := ev.price * q, booked_at := bookedAt }]))

/-- `tools.cancel_ticket(booking_id, phone_number)`: find the first booking
with the given id in the user's list, remove exactly that element, delete
the phone key when the list becomes empty, and restore the cancelled
quantity to the first matching event. -/
def cancelTicket (bookingId phone : String) (kb : List KEvent)
    (tdb : List (String × List Booking)) :
    CancelResult × List KEvent × List (String × List Booking) :=
  match ((assocGet tdb phone).getD []).find?
      (fun t => decide (t.booking_id = bookingId)) with
  | none => (.err ("Booking ID \x27" ++ bookingId ++ "\x27 not found."), kb, tdb)
  | some t =>
    (.ok ("Booking for \x27" ++ t.event_name ++ "\x27 (ID: " ++ bookingId
        ++ ") is canceled."),
     updAvailFirst kb t.event_id t.quantity,
     if (eraseFirstB ((assocGet tdb phone).getD []) t).isEmpty then
       assocDelete (assocSet tdb phone
         (eraseFirstB ((assocGet tdb phone).getD []) t)) phone
     else
       assocSet tdb phone (eraseFirstB ((assocGet tdb phone).getD []) t))

theorem updAvailFirst_cancel (kb : List KEvent) (eid : String) (q : Int) :
    updAvailFirst (updAvailFirst kb eid (-q)) eid q = kb := by
  induction kb with
  | nil => rfl
  | cons e es ih =>
    by_cases h : e.id = eid
    · cases e with
      | mk i n p t =>
        have h' : i = eid := h
        subst h'
        simp only [updAvailFirst]
        rw [if_pos trivial]
        simp only [List.cons.injEq, KEvent.mk.injEq, and_true, true_and,
          eq_self_iff_true]
        omega
    · simp only [updAvailFirst]
      rw [if_neg h]
      simp only [updAvailFirst]
      rw [if_neg h, ih]

theorem find?_append_singleton {α : Type} (p : α → Bool) (l : List α) (t : α)
    (hl : ∀ b ∈ l, p b = false) (ht : p t = true) :
    List.find? p (l ++ [t]) = some t := by
  induction l with
  | nil => simp [List.find?, ht]
  | cons b bs ih =>
    rw [List.cons_append, List.find?_cons,
      hl b (List.mem_cons_self b bs)]
    exact ih (fun x hx => hl x (List.mem_cons_of_mem b hx))

theorem eraseFirstB_append_fresh {l : List Booking} {t : Booking}
    (h : ∀ b ∈ l, ¬ b = t) : eraseFirstB (l ++ [t]) t = l := by
  induction l with
  | nil => simp [eraseFirstB]
  | cons b bs ih =>
    rw [List.cons_append]
    unfold eraseFirstB
    rw [if_neg (h b (List.mem_cons_self b bs))]
    rw [ih (fun x hx => h x (List.mem_cons_of_mem b hx))]

theorem assocGet_eq_none_of_not_mem_keys {α : Type}
    {db : List (String × α)} {k : String} (h : k ∉ db.map Prod.fst) :
    assocGet db k = none := by
  induction db with
  | nil => rfl
  | cons e es ih =>
    simp only [List.map_cons, List.mem_cons] at h
    push_neg at h
    unfold assocGet
    rw [if_neg (fun he => h.1 he.symm)]
    exact ih h.2

theorem mem_keys_assocSet {α : Type} {db : List (String × α)} {k x : String}
    {v : α} (h : x ∈ (assocSet db k v).map Prod.fst) :
    x ∈ db.map Prod.fst ∨ x = k := by
  induction db with
  | nil => simpa [assocSet] using h
  | cons e es ih =>
    unfold assocSet at h
    by_cases he : e.1 = k
    · rw [if_pos he] at h
      simp only [List.map_cons, List.mem_cons] at h ⊢
      rcases h with h | h
      · exact Or.inr h
      · exact Or.inl (Or.inr h)
    · rw [if_neg he] at h
      simp only [List.map_cons, List.mem_cons] at h ⊢
      rcases h with h | h
      · exact Or.inl (Or.inl h)
      · rcases ih h with h2 | h2
        · exact Or.inl (Or.inr h2)
        · exact Or.inr h2

theorem nodupKeys_assocSet {α : Type} (db : List (String × α)) (k : String)
    (v : α) (h : (db.map Prod.fst).Nodup) :
    ((assocSet db k v).map Prod.fst).Nodup := by
  induction db with
  | nil => simp [assocSet]
  | cons e es ih =>
    rw [List.map_cons, List.nodup_cons] at h
    unfold assocSet
    by_cases he : e.1 = k
    · rw [if_pos he]
      rw [List.map_cons, List.nodup_cons]
      exact ⟨he ▸ h.1, h.2⟩
    · rw [if_neg he]
      rw [List.map_cons, List.nodup_cons]
      refine ⟨?_, ih h.2⟩
      intro hmem
      rcases mem_keys_assocSet hmem with h2 | h2
      · exact h.1 h2
      · exact he h2

theorem assocGet_assocDelete_self {α : Type} (db : List (String × α))
    (k : String) (h : (db.map Prod.fst).Nodup) :
    assocGet (assocDelete db k) k = none := by
  induction db with
  | nil => rfl
  | cons e es ih =>
    rw [List.map_cons, List.nodup_cons] at h
    unfold assocDelete
    by_cases he : e.1 = k
    · rw [if_pos he]
      exact assocGet_eq_none_of_not_mem_keys (he ▸ h.1)
    · rw [if_neg he]
      unfold assocGet
      rw [if_neg he]
      exact ih h.2

/-- Claim C6: for an event actually present with at least `q` tickets
available and a booking id fresh for the user's list (booking ids are
timestamp-generated and unique), `book_ticket` followed by `cancel_ticket`
with the returned booking id and the same phone number restores the whole
catalog — in particular the event's `tickets_available` — to its
pre-booking state, removes exactly the created booking so the user's list
returns to its pre-booking value, and deletes the phone-number key from the
ledger when that list becomes empty.  The ledger is a Python dict, so its
keys are unique (`hkeys`). -/
theorem C6_booking_round_trip
    (kb : List KEvent) (tdb : List (String × List Booking))
    (eventId phone bookingId bookedAt : String) (q : Int) (ev : KEvent)
    (hkeys : (tdb.map Prod.fst).Nodup)
    (hev : lookupEventLast kb eventId = some ev)
    (hq : q ≤ ev.tickets_available)
    (hfresh : ∀ b ∈ (assocGet tdb phone).getD [], ¬ b.booking_id = bookingId) :
    ∃ kbMid tdbMid,
      bookTicket bookingId bookedAt eventId q phone kb tdb =
        (.ok { booking_id := bookingId, event_id := eventId, event_name := ev.name,
               quantity := q, total_price := ev.price * q, booked_at := bookedAt },
         kbMid, tdbMid)
      ∧ (∃ msg, (cancelTicket bookingId phone kbMid tdbMid).1 = .ok msg)
      ∧ (cancelTicket bookingId phone kbMid tdbMid).2.1 = kb
      ∧ (assocGet (cancelTicket bookingId phone kbMid tdbMid).2.2 phone).getD [] =
          (assocGet tdb phone).getD []
      ∧ ((assocGet tdb phone).getD [] = [] →
          assocGet (cancelTicket bookingId phone kbMid tdbMid).2.2 phone = none) := by
  have hnlt : ¬ ev.tickets_available < q := not_lt.mpr hq
  have hbook : bookTicket bookingId bookedAt eventId q phone kb tdb =
      (.ok { booking_id := bookingId, event_id := eventId, event_name := ev.name,
             quantity := q, total_price := ev.price * q, booked_at := bookedAt },
       updAvailFirst kb eventId (-q),
       assocSet tdb phone (((assocGet tdb phone).getD []) ++
         [{ booking_id := bookingId, event_id := eventId, event_name := ev.name,
            quantity := q, total_price := ev.price * q, booked_at := bookedAt }])) := by
    simp only [bookTicket, hev]
    rw [if_neg hnlt]
  have hget1 : assocGet (assocSet tdb phone (((assocGet tdb phone).getD []) ++
      [{ booking_id := bookingId, event_id := eventId, event_name := ev.name,
         quantity := q, total_price := ev.price * q, booked_at := bookedAt }])) phone =
      some (((assocGet tdb phone).getD []) ++
        [{ booking_id := bookingId, event_id := eventId, event_name := ev.name,
           quantity := q, total_price := ev.price * q, booked_at := bookedAt }]) :=
    assocGet_assocSet_self _ _ _
  have hfind : List.find? (fun t : Booking => decide (t.booking_id = bookingId))
      (((assocGet tdb phone).getD []) ++
        [({ booking_id := bookingId, event_id := eventId, event_name := ev.name,
            quantity := q, total_price := ev.price * q,
            booked_at := bookedAt } : Booking)]) =
      some { booking_id := bookingId, event_id := eventId, event_name := ev.name,
             quantity := q, total_price := ev.price * q, booked_at := bookedAt } :=
    find?_append_singleton (fun t : Booking => decide (t.booking_id = bookingId))
      ((assocGet tdb phone).getD [])
      { booking_id := bookingId, event_id := eventId, event_name := ev.name,
        quantity := q, total_price := ev.price * q, booked_at := bookedAt }
      (fun b hb => by simp [hfresh b hb]) (by simp)
  have herase : eraseFirstB (((assocGet tdb phone).getD []) ++
      [{ booking_id := bookingId, event_id := eventId, event_name := ev.name,
         quantity := q, total_price := ev.price * q, booked_at := bookedAt }])
      { booking_id := bookingId, event_id := eventId, event_name := ev.name,
        quantity := q, total_price := ev.price * q, booked_at := bookedAt } =
      (assocGet tdb phone).getD [] := by
    refine eraseFirstB_append_fresh ?_
    intro b hb hbe
    exact hfresh b hb (by rw [hbe])
  have hcancel : cancelTicket bookingId phone (updAvailFirst kb eventId (-q))
      (assocSet tdb phone (((assocGet tdb phone).getD []) ++
        [{ booking_id := bookingId, event_id := eventId, event_name := ev.name,
           quantity := q, total_price := ev.price * q, booked_at := bookedAt }])) =
      (.ok ("Booking for \x27" ++ ev.name ++ "\x27 (ID: " ++ bookingId
          ++ ") is canceled."),
       updAvailFirst (updAvailFirst kb eventId (-q)) eventId q,
       if ((assocGet tdb phone).getD []).isEmpty then
         assocDelete (assocSet (assocSet tdb phone (((assocGet tdb phone).getD []) ++
           [{ booking_id := bookingId, event_id := eventId, event_name := ev.name,
              quantity := q, total_price := ev.price * q, booked_at := bookedAt }]))
           phone ((assocGet tdb phone).getD [])) phone
       else
         assocSet (assocSet tdb phone (((assocGet tdb phone).getD []) ++
           [{ booking_id := bookingId, event_id := eventId, event_name := ev.name,
              quantity := q, total_price := ev.price * q, booked_at := bookedAt }]))
           phone ((assocGet tdb phone).getD [])) := by
    simp only [cancelTicket, hget1, Option.getD_some, hfind, herase]
  refine ⟨updAvailFirst kb eventId (-q),
    assocSet tdb phone (((assocGet tdb phone).getD []) ++
      [{ booking_id := bookingId, event_id := eventId, event_name := ev.name,
         quantity := q, total_price := ev.price * q, booked_at := bookedAt }]),
    hbook, ?_, ?_, ?_, ?_⟩
  · rw [hcancel]
    exact ⟨_, rfl⟩
  · rw [hcancel]
    show updAvailFirst (updAvailFirst kb eventId (-q)) eventId q = kb
    exact updAvailFirst_cancel kb eventId q
  · rw [hcancel]
    by_cases hp : ((assocGet tdb phone).getD []).isEmpty
    · show (assocGet (if ((assocGet tdb phone).getD []).isEmpty then _ else _)
        phone).getD [] = _
      rw [if_pos hp]
      rw [assocGet_assocDelete_self _ _
        (nodupKeys_assocSet _ _ _ (nodupKeys_assocSet _ _ _ hkeys))]
      rw [List.isEmpty_iff.mp hp]
      rfl
    · show (assocGet (if ((assocGet tdb phone).getD []).isEmpty then _ else _)
        phone).getD [] = _
      rw [if_neg hp, assocGet_assocSet_self]
      rfl
  · intro hpE
    rw [hcancel]
    show assocGet (if ((assocGet tdb phone).getD []).isEmpty then _ else _)
      phone = none
    rw [if_pos (by simp [hpE])]
    exact assocGet_assocDelete_self _ _
      (nodupKeys_assocSet _ _ _ (nodupKeys_assocSet _ _ _ hkeys))

/-- Witness for C6: booking 2 of 5 tickets for `evt001` and cancelling the
returned booking restores the catalog and empties (and deletes) the user's
ledger entry. -/
theorem C6_witness :
    ∃ kbMid tdbMid,
      bookTicket "tic_1" "t0" "evt001" 2 "9876543210"
          [⟨"evt001", "Concert", 100, 5⟩] [] =
        (.ok { booking_id := "tic_1", event_id := "evt001",
               event_name := "Concert", quantity := 2,
               total_price := 100 * 2, booked_at := "t0" },
         kbMid, tdbMid)
      ∧ (∃ msg, (cancelTicket "tic_1" "9876543210" kbMid tdbMid).1 = .ok msg)
      ∧ (cancelTicket "tic_1" "9876543210" kbMid tdbMid).2.1 =
          [⟨"evt001", "Concert", 100, 5⟩]
      ∧ (assocGet (cancelTicket "tic_1" "9876543210" kbMid tdbMid).2.2
          "9876543210").getD [] =
          (assocGet ([] : List (String × List Booking)) "9876543210").getD []
      ∧ ((assocGet ([] : List (String × List Booking)) "9876543210").getD [] = [] →
          assocGet (cancelTicket "tic_1" "9876543210" kbMid tdbMid).2.2
            "9876543210" = none) :=
  C6_booking_round_trip [⟨"evt001", "Concert", 100, 5⟩] [] "evt001" "9876543210"
    "tic_1" "t0" 2 ⟨"evt001", "Concert", 100, 5⟩
    (by simp) (by rfl) (by decide) (by simp [assocGet])

/-! ## Generation provider and fallback
(`LLMProvider._generate_ollama` / `ConversationManager._generate_llm_response`)

The HTTP layer is external; an Ollama call is modelled by its observable
outcome.  In the 200-OK case each streamed line's `json.loads` outcome is
modelled as `Option String`: `some content` when the parsed object carries
`message.content`, `none` when the line is malformed (`JSONDecodeError`,
silently skipped) or lacks those keys.  The caught failure cases each yield
the source's fixed fallback string as a chunk instead of raising. -/

/-- Observable outcome of one Ollama chat request. -/
inductive OllamaOutcome where
  | ok (parsedLines : List (Option String))
  | httpError
  | timedOut
  | connectFailed
  | otherError
deriving DecidableEq

/-- `LLMProvider._generate_ollama`: the list of chunks the generator yields.
Every branch of the source's `try/except` yields rather than raises, so the
generator never propagates an exception. -/
def ollamaGenerate : OllamaOutcome → List String
  | .ok parsedLines => parsedLines.filterMap id
  | .httpError => ["I\x27m having trouble thinking right now. Could you try again?"]
  | .timedOut => ["Sorry, I\x27m taking too long to respond. Please try again."]
  | .connectFailed =>
      ["I can\x27t connect to my brain right now. Please check if Ollama is running."]
  | .otherError => ["I encountered an error. Please try again."]

/-- How one run of `llm_provider.generate(...)` looks to the orchestrator:
either the stream completes after yielding its chunks, or an exception is
raised after some chunks were already forwarded. -/
inductive GenRun where
  | completes (chunks : List String)
  | raisesAfter (chunks : List String)
deriving DecidableEq

/-- One transmission on the transport: a streamed chunk (`send_chunk`) or a
complete reply (`send_reply`). -/
inductive Sent where
  | chunk (s : String)
  | reply (s : String)
deriving DecidableEq

/-- The generic apology of the `except` fallback in
`_generate_llm_response`. -/
def fallbackApology : String :=
  "Sorry, I\x27m having trouble understanding. Can you rephrase that?"

/-- `ConversationManager._generate_llm_response`: forward every chunk as it
arrives; if the generator raises, the `except Exception` handler sends the
raw tool result when present, else the generic apology, as one complete
reply; the handler swallows the exception, so nothing propagates to
`handle_message`. -/
def generateLLMResponse (run : GenRun) (toolContext : Option String) : List Sent :=
  match run with
  | .completes cs => cs.map .chunk
  | .raisesAfter cs =>
      cs.map .chunk ++ [.reply (toolContext.getD fallbackApology)]

/-- Counterexample for claim C8 as stated: a provider failure of the
`malformed response` kind — HTTP 200 with every streamed line unparseable —
makes the generator silently skip every line and finish without raising, so
the turn sends nothing at all: no chunk, no tool-result fallback, no
apology, even though a tool result is present. -/
theorem C8_counterexample :
    generateLLMResponse (.completes (ollamaGenerate (.ok [none])))
      (some "Tool Results") = [] := by
  decide

/-- Claim C8 as amended: whenever generation raises an exception (at any
point of the stream), the turn still ends with a complete reply — the raw
tool result text when present, otherwise the generic apology — and the
exception is not propagated; the provider failures the Ollama generator
catches itself (non-200 status, timeout, connection refused, any other
exception) each yield a fallback chunk, so those turns also send output.
However, a 200 response whose lines are all malformed yields no chunks and
the turn ends with nothing sent. -/
theorem C8_provider_failure_fallback (chunks : List String)
    (toolContext : Option String) :
    (generateLLMResponse (.raisesAfter chunks) toolContext).getLast? =
      some (.reply (toolContext.getD fallbackApology))
    ∧ ¬ generateLLMResponse (.raisesAfter chunks) toolContext = []
    ∧ (∀ b ∈ [OllamaOutcome.httpError, .timedOut, .connectFailed, .otherError],
        ¬ generateLLMResponse (.completes (ollamaGenerate b)) toolContext = [])
    ∧ generateLLMResponse (.completes (ollamaGenerate (.ok [none]))) toolContext = [] := by
  refine ⟨?_, ?_, ?_, ?_⟩
  · show (List.map Sent.chunk chunks ++
      [Sent.reply (toolContext.getD fallbackApology)]).getLast? = _
    exact List.getLast?_concat _
  · simp [generateLLMResponse]
  · intro b hb
    fin_cases hb <;> simp [generateLLMResponse, ollamaGenerate]
  · simp [generateLLMResponse, ollamaGenerate]

/-- Witness for the amended C8: a raise mid-stream falls back to the raw
tool result as the final complete reply, and a timeout still produces
output. -/
theorem C8_witness :
    (generateLLMResponse (.raisesAfter ["Let me "]) (some "Tool Results")).getLast? =
      some (.reply ((some "Tool Results").getD fallbackApology))
    ∧ ¬ generateLLMResponse (.completes (ollamaGenerate .timedOut)) none = [] :=
  ⟨(C8_provider_failure_fallback ["Let me "] (some "Tool Results")).1,
   (C8_provider_failure_fallback ["Let me "] none).2.2.1 .timedOut (by decide)⟩

end Callbot
